import Mathlib

/-!
Verification of the contact-enrichment backend.

This file gives a shallow embedding, in Lean 4, of the parts of the
Trancendos/contact-enrichment-backend repository that the specification
talks about: the contact merge/split scoring heuristic
(src/services/ai_predictor.py), the history/backup service
(src/services/history_service.py), the contact management service
(src/services/contact_management_service.py), the session auth middleware
(src/middleware/auth_middleware.py) and the regex-based note NLU extractor
(src/services/nlu_service.py).  Python dictionaries become Lean structures,
the database session becomes explicit state passing over lists of rows, and
Python floats are modelled by exact rationals.  Theorems at the end of the
file settle the specification claims against these definitions.
-/

/-! ## Python string primitives

Small models of the Python string operations used by the services.
All of them are ASCII models: the repository only ever feeds ASCII
identifiers, emails and phone strings through them.
-/

/-- Model of the Python expression needle in hay (substring containment).
An empty needle is contained in every string, as in Python. -/
def py_in (needle hay : String) : Bool :=
  hay.toList.tails.any (fun t => needle.toList.isPrefixOf t)

/-- Model of Python str.lower restricted to ASCII, which is all the
repository uses. -/
def py_lower (s : String) : String :=
  String.mk (s.toList.map Char.toLower)

/-- Model of Python str.capitalize restricted to ASCII: first character
uppercased, the rest lowercased. -/
def py_capitalize (s : String) : String :=
  match s.toList with
  | [] => ""
  | c :: cs => String.mk (c.toUpper :: cs.map Char.toLower)

/-- Model of Python str.split(sep)[1] with a one-character separator:
the text between the first and second occurrence of the separator
(or up to the end of the string).  Used for email domain extraction,
where the caller has already checked that the separator occurs. -/
def py_split_second (sep : Char) (s : String) : String :=
  match (s.toList.splitOn sep).get? 1 with
  | some cs => String.mk cs
  | none => ""

/-- Model of Python str.replace for single characters removed entirely,
as in phone normalisation replace(" ", "").replace("-", ""). -/
def py_strip_chars (bad : List Char) (s : String) : String :=
  String.mk (s.toList.filter (fun c => ¬ bad.contains c))

/-- Model of Python str.strip(): whitespace removed from both ends. -/
def py_strip (s : String) : String :=
  String.mk
    (((s.toList.dropWhile Char.isWhitespace).reverse.dropWhile Char.isWhitespace).reverse)

/-! ## Contact records for the AI predictor

In ai_predictor.py a contact is a plain dictionary.  The predictor only
reads the keys fullName, emails, phones, organization, relatedNames and
note; emails and phones are lists of dictionaries read through
e.get("value", "").  A missing key and an empty value are
indistinguishable to the predictor, so both are modelled by the empty
string / empty list.
-/

/-- One entry of the emails or phones list of a contact dictionary;
value models e.get("value", ""). -/
structure EPEntry where
  value : String
deriving DecidableEq

/-- The contact dictionary as read by ContactAIPredictor. -/
structure PContact where
  fullName : String
  emails : List EPEntry
  phones : List EPEntry
  organization : String
  relatedNames : List String
  note : String
deriving DecidableEq

/-! ## ContactAIPredictor (src/services/ai_predictor.py) -/

/-- Embeds ContactAIPredictor.extract_contact_features.  Python sets are
modelled as duplicate-free lists (List.dedup). -/
structure ContactFeatures where
  has_multiple_emails : Bool
  has_multiple_phones : Bool
  has_organization : Bool
  has_related_names : Bool
  name_length : Nat
  has_notes : Bool
  email_domains : List String
  phone_count : Nat
  email_count : Nat
deriving DecidableEq

/-- Embeds the feature extraction of extract_contact_features: counts of
non-empty emails and phones, presence flags, and the set of email domains
(the text after the first at-sign of each email value containing one). -/
def extract_contact_features (contact : PContact) : ContactFeatures :=
  { has_multiple_emails := 1 < (contact.emails.filter (fun e => e.value ≠ "")).length
    has_multiple_phones := 1 < (contact.phones.filter (fun p => p.value ≠ "")).length
    has_organization := contact.organization ≠ ""
    has_related_names := 0 < contact.relatedNames.length
    name_length := contact.fullName.length
    has_notes := contact.note ≠ ""
    email_domains :=
      ((contact.emails.filter (fun e => py_in "@" e.value)).map
        (fun e => py_split_second '@' e.value)).dedup
    phone_count := (contact.phones.filter (fun p => p.value ≠ "")).length
    email_count := (contact.emails.filter (fun e => e.value ≠ "")).length }

/-- Embeds ContactAIPredictor._fuzzy_match: strip the honorific prefixes
mr., mrs. and dr., then test containment either way, then compare the
first three characters when both names are longer than three characters. -/
def fuzzy_strip (s : String) : String :=
  py_strip (((s.replace "mr." "").replace "mrs." "").replace "dr." "")

/-- Embeds the body of _fuzzy_match after stripping. -/
def fuzzy_match (str1 str2 : String) : Bool :=
  let s1 := fuzzy_strip str1
  let s2 := fuzzy_strip str2
  if py_in s1 s2 || py_in s2 s1 then true
  else if 3 < s1.length ∧ 3 < s2.length then s1.toList.take 3 == s2.toList.take 3
  else false

/-- Embeds the set comprehension building emails1 / emails2 in
calculate_merge_probability: lowercased non-empty email values, as a set. -/
def contact_email_set (c : PContact) : List String :=
  ((c.emails.filter (fun e => e.value ≠ "")).map (fun e => py_lower e.value)).dedup

/-- Embeds the set comprehension building phones1 / phones2: non-empty
phone values with spaces and dashes removed, as a set. -/
def contact_phone_set (c : PContact) : List String :=
  ((c.phones.filter (fun p => p.value ≠ "")).map
    (fun p => py_strip_chars [' ', '-'] p.value)).dedup

/-- Embeds the set comprehension building related1 / related2: lowercased
related names, as a set. -/
def contact_related_set (c : PContact) : List String :=
  (c.relatedNames.map py_lower).dedup

/-- Embeds ContactAIPredictor._same_domain: the two email sets share at
least one domain (text after the first at-sign). -/
def same_domain (emails1 emails2 : List String) : Bool :=
  let domains1 := ((emails1.filter (fun e => py_in "@" e)).map (py_split_second '@')).dedup
  let domains2 := ((emails2.filter (fun e => py_in "@" e)).map (py_split_second '@')).dedup
  0 < (domains1.inter domains2).length

/-- Embeds the name-similarity block of calculate_merge_probability
(the first max_score += 30 block). -/
def name_match_score (raw1 raw2 : String) : ℚ :=
  let name1 := py_lower raw1
  let name2 := py_lower raw2
  if name1 ≠ "" ∧ name2 ≠ "" then
    if name1 = name2 then 30
    else if py_in name1 name2 || py_in name2 name1 then 20
    else if fuzzy_match name1 name2 then 15
    else 0
  else 0

/-- Embeds the email-overlap block of calculate_merge_probability
(the max_score += 25 block over emails). -/
def email_overlap_score (emails1 emails2 : List String) : ℚ :=
  if emails1 ≠ [] ∧ emails2 ≠ [] then
    if 0 < (emails1.inter emails2).length then 25
    else if same_domain emails1 emails2 then 10
    else 0
  else 0

/-- Embeds the phone-overlap block of calculate_merge_probability
(the max_score += 25 block over phones). -/
def phone_overlap_score (phones1 phones2 : List String) : ℚ :=
  if phones1 ≠ [] ∧ phones2 ≠ [] then
    if 0 < (phones1.inter phones2).length then 25
    else 0
  else 0

/-- Embeds the organization block of calculate_merge_probability
(the max_score += 10 block over organizations). -/
def org_match_score (raw1 raw2 : String) : ℚ :=
  let org1 := py_lower raw1
  let org2 := py_lower raw2
  if org1 ≠ "" ∧ org2 ≠ "" ∧ org1 = org2 then 10 else 0

/-- Embeds the related-names block of calculate_merge_probability
(the final max_score += 10 block). -/
def related_overlap_score (related1 related2 : List String) : ℚ :=
  if related1 ≠ [] ∧ related2 ≠ [] then
    if 0 < (related1.inter related2).length then 10
    else 0
  else 0

/-- Embeds the value computed by calculate_merge_probability: the summed
block scores divided by the summed block weights (30+25+25+10+10), which
the code accumulates unconditionally into max_score.  Python float
arithmetic is modelled by exact rationals. -/
def merge_probability_val (contact1 contact2 : PContact) : ℚ :=
  let score : ℚ :=
    name_match_score contact1.fullName contact2.fullName
    + email_overlap_score (contact_email_set contact1) (contact_email_set contact2)
    + phone_overlap_score (contact_phone_set contact1) (contact_phone_set contact2)
    + org_match_score contact1.organization contact2.organization
    + related_overlap_score (contact_related_set contact1) (contact_related_set contact2)
  let max_score : ℚ := 30 + 25 + 25 + 10 + 10
  if 0 < max_score then score / max_score else 0

/-- Embeds the value computed by calculate_split_probability: four
independent feature bonuses capped at 1. -/
def split_probability_val (contact : PContact) : ℚ :=
  let features := extract_contact_features contact
  let s1 : ℚ := if 1 < features.email_count ∧ 1 < features.email_domains.length then 3/10 else 0
  let s2 : ℚ := if 2 < features.phone_count then 2/10 else 0
  let s3 : ℚ := if features.has_related_names then 25/100 else 0
  let s4 : ℚ := if features.has_multiple_emails ∧ features.has_multiple_phones then 25/100 else 0
  min (s1 + s2 + s3 + s4) 1

/-- The predictor object: three feedback-pattern counters, each a Python
defaultdict(int) modelled as an association list in insertion order. -/
structure ContactAIPredictor where
  merge_patterns : List (String × Nat)
  split_patterns : List (String × Nat)
  rejection_patterns : List (String × Nat)
deriving DecidableEq

/-- Increment of one defaultdict(int) counter, keeping insertion order. -/
def pattern_incr (m : List (String × Nat)) (k : String) : List (String × Nat) :=
  if m.any (fun kv => kv.1 == k) then
    m.map (fun kv => if kv.1 == k then (kv.1, kv.2 + 1) else kv)
  else m ++ [(k, 1)]

/-- Embeds the method ContactAIPredictor.calculate_merge_probability as a
state-passing function.  The Python body never reads or writes self, so
the translation returns the predictor unchanged next to the value. -/
def ContactAIPredictor.calculate_merge_probability (p : ContactAIPredictor)
    (contact1 contact2 : PContact) : ContactAIPredictor × ℚ :=
  (p, merge_probability_val contact1 contact2)

/-- Embeds the method ContactAIPredictor.calculate_split_probability as a
state-passing function; the body never touches self. -/
def ContactAIPredictor.calculate_split_probability (p : ContactAIPredictor)
    (contact : PContact) : ContactAIPredictor × ℚ :=
  (p, split_probability_val contact)

/-- Embeds ContactAIPredictor.learn_from_feedback.  The feature_key
argument models json.dumps(features, sort_keys=True) computed by the
caller; its exact shape is irrelevant to the claims. -/
def ContactAIPredictor.learn_from_feedback (p : ContactAIPredictor)
    (suggestion_type : String) (feature_key : String) (approved : Bool) :
    ContactAIPredictor :=
  if approved then
    if suggestion_type = "merge" then
      { p with merge_patterns := pattern_incr p.merge_patterns feature_key }
    else if suggestion_type = "split" then
      { p with split_patterns := pattern_incr p.split_patterns feature_key }
    else p
  else
    { p with rejection_patterns := pattern_incr p.rejection_patterns feature_key }

/-! ## Lemmas about the scoring blocks -/

/-- Nonempty intersection of lists is a symmetric condition. -/
theorem inter_length_pos_comm {α : Type} [DecidableEq α] [BEq α] [LawfulBEq α]
    (l1 l2 : List α) :
    (0 < (l1.inter l2).length) = (0 < (l2.inter l1).length) := by
  apply propext
  constructor <;> intro h
  · obtain ⟨a, ha⟩ := List.exists_mem_of_length_pos h
    exact List.length_pos_of_mem (List.mem_inter_iff.2
      ⟨(List.mem_inter_iff.1 ha).2, (List.mem_inter_iff.1 ha).1⟩)
  · obtain ⟨a, ha⟩ := List.exists_mem_of_length_pos h
    exact List.length_pos_of_mem (List.mem_inter_iff.2
      ⟨(List.mem_inter_iff.1 ha).2, (List.mem_inter_iff.1 ha).1⟩)

/-- Shared-domain detection is symmetric. -/
theorem same_domain_comm (s1 s2 : List String) :
    same_domain s1 s2 = same_domain s2 s1 := by
  simp only [same_domain]
  rw [decide_eq_decide]
  exact iff_of_eq (inter_length_pos_comm _ _)

/-- Fuzzy name matching is symmetric. -/
theorem fuzzy_match_comm (a b : String) : fuzzy_match a b = fuzzy_match b a := by
  simp only [fuzzy_match]
  rw [Bool.or_comm]
  by_cases h0 : (py_in (fuzzy_strip b) (fuzzy_strip a)
      || py_in (fuzzy_strip a) (fuzzy_strip b)) = true
  · rw [if_pos h0, if_pos h0]
  · rw [if_neg h0, if_neg h0]
    by_cases h1 : 3 < (fuzzy_strip a).length ∧ 3 < (fuzzy_strip b).length
    · rw [if_pos h1, if_pos ⟨h1.2, h1.1⟩]
      simp [beq_iff_eq, eq_comm]
    · rw [if_neg h1, if_neg (fun hx => h1 ⟨hx.2, hx.1⟩)]

/-- The name block of the merge score is symmetric. -/
theorem name_match_score_comm (a b : String) :
    name_match_score a b = name_match_score b a := by
  simp only [name_match_score]
  by_cases h0 : py_lower a ≠ "" ∧ py_lower b ≠ ""
  · have h0r : py_lower b ≠ "" ∧ py_lower a ≠ "" := ⟨h0.2, h0.1⟩
    rw [if_pos h0, if_pos h0r]
    by_cases h1 : py_lower a = py_lower b
    · have h1r : py_lower b = py_lower a := h1.symm
      rw [if_pos h1, if_pos h1r]
    · have h1r : ¬ py_lower b = py_lower a := fun hx => h1 hx.symm
      rw [if_neg h1, if_neg h1r]
      by_cases h2 : (py_in (py_lower a) (py_lower b)
          || py_in (py_lower b) (py_lower a)) = true
      · have h2r : (py_in (py_lower b) (py_lower a)
            || py_in (py_lower a) (py_lower b)) = true := Bool.or_comm .. ▸ h2
        rw [if_pos h2, if_pos h2r]
      · have h2r : ¬ (py_in (py_lower b) (py_lower a)
            || py_in (py_lower a) (py_lower b)) = true :=
          fun hx => h2 (Bool.or_comm .. ▸ hx)
        rw [if_neg h2, if_neg h2r, fuzzy_match_comm]
  · have h0r : ¬ (py_lower b ≠ "" ∧ py_lower a ≠ "") := fun hx => h0 ⟨hx.2, hx.1⟩
    rw [if_neg h0, if_neg h0r]

/-- The email block of the merge score is symmetric. -/
theorem email_overlap_score_comm (s1 s2 : List String) :
    email_overlap_score s1 s2 = email_overlap_score s2 s1 := by
  simp only [email_overlap_score]
  by_cases h0 : s1 ≠ [] ∧ s2 ≠ []
  · have h0r : s2 ≠ [] ∧ s1 ≠ [] := ⟨h0.2, h0.1⟩
    rw [if_pos h0, if_pos h0r]
    by_cases h1 : 0 < (s1.inter s2).length
    · have h1r : 0 < (s2.inter s1).length := inter_length_pos_comm s1 s2 ▸ h1
      rw [if_pos h1, if_pos h1r]
    · have h1r : ¬ 0 < (s2.inter s1).length :=
        fun hx => h1 (inter_length_pos_comm s2 s1 ▸ hx)
      rw [if_neg h1, if_neg h1r, same_domain_comm]
  · have h0r : ¬ (s2 ≠ [] ∧ s1 ≠ []) := fun hx => h0 ⟨hx.2, hx.1⟩
    rw [if_neg h0, if_neg h0r]

/-- The phone block of the merge score is symmetric. -/
theorem phone_overlap_score_comm (s1 s2 : List String) :
    phone_overlap_score s1 s2 = phone_overlap_score s2 s1 := by
  simp only [phone_overlap_score]
  by_cases h0 : s1 ≠ [] ∧ s2 ≠ []
  · have h0r : s2 ≠ [] ∧ s1 ≠ [] := ⟨h0.2, h0.1⟩
    rw [if_pos h0, if_pos h0r]
    by_cases h1 : 0 < (s1.inter s2).length
    · have h1r : 0 < (s2.inter s1).length := inter_length_pos_comm s1 s2 ▸ h1
      rw [if_pos h1, if_pos h1r]
    · have h1r : ¬ 0 < (s2.inter s1).length :=
        fun hx => h1 (inter_length_pos_comm s2 s1 ▸ hx)
      rw [if_neg h1, if_neg h1r]
  · have h0r : ¬ (s2 ≠ [] ∧ s1 ≠ []) := fun hx => h0 ⟨hx.2, hx.1⟩
    rw [if_neg h0, if_neg h0r]

/-- The organization block of the merge score is symmetric. -/
theorem org_match_score_comm (a b : String) :
    org_match_score a b = org_match_score b a := by
  simp only [org_match_score]
  by_cases h0 : py_lower a ≠ "" ∧ py_lower b ≠ "" ∧ py_lower a = py_lower b
  · have h0r : py_lower b ≠ "" ∧ py_lower a ≠ "" ∧ py_lower b = py_lower a :=
      ⟨h0.2.1, h0.1, h0.2.2.symm⟩
    rw [if_pos h0, if_pos h0r]
  · have h0r : ¬ (py_lower b ≠ "" ∧ py_lower a ≠ "" ∧ py_lower b = py_lower a) :=
      fun hx => h0 ⟨hx.2.1, hx.1, hx.2.2.symm⟩
    rw [if_neg h0, if_neg h0r]

/-- The related-names block of the merge score is symmetric. -/
theorem related_overlap_score_comm (s1 s2 : List String) :
    related_overlap_score s1 s2 = related_overlap_score s2 s1 := by
  simp only [related_overlap_score]
  by_cases h0 : s1 ≠ [] ∧ s2 ≠ []
  · have h0r : s2 ≠ [] ∧ s1 ≠ [] := ⟨h0.2, h0.1⟩
    rw [if_pos h0, if_pos h0r]
    by_cases h1 : 0 < (s1.inter s2).length
    · have h1r : 0 < (s2.inter s1).length := inter_length_pos_comm s1 s2 ▸ h1
      rw [if_pos h1, if_pos h1r]
    · have h1r : ¬ 0 < (s2.inter s1).length :=
        fun hx => h1 (inter_length_pos_comm s2 s1 ▸ hx)
      rw [if_neg h1, if_neg h1r]
  · have h0r : ¬ (s2 ≠ [] ∧ s1 ≠ []) := fun hx => h0 ⟨hx.2, hx.1⟩
    rw [if_neg h0, if_neg h0r]

/-- Range of the name block. -/
theorem name_match_score_bounds (a b : String) :
    0 ≤ name_match_score a b ∧ name_match_score a b ≤ 30 := by
  simp only [name_match_score]
  split_ifs <;> norm_num

/-- Range of the email block. -/
theorem email_overlap_score_bounds (s1 s2 : List String) :
    0 ≤ email_overlap_score s1 s2 ∧ email_overlap_score s1 s2 ≤ 25 := by
  simp only [email_overlap_score]
  split_ifs <;> norm_num

/-- Range of the phone block. -/
theorem phone_overlap_score_bounds (s1 s2 : List String) :
    0 ≤ phone_overlap_score s1 s2 ∧ phone_overlap_score s1 s2 ≤ 25 := by
  simp only [phone_overlap_score]
  split_ifs <;> norm_num

/-- Range of the organization block. -/
theorem org_match_score_bounds (a b : String) :
    0 ≤ org_match_score a b ∧ org_match_score a b ≤ 10 := by
  simp only [org_match_score]
  split_ifs <;> norm_num

/-- Range of the related-names block. -/
theorem related_overlap_score_bounds (s1 s2 : List String) :
    0 ≤ related_overlap_score s1 s2 ∧ related_overlap_score s1 s2 ≤ 10 := by
  simp only [related_overlap_score]
  split_ifs <;> norm_num

/-- C2: calculate_merge_probability always returns a rational in the closed
interval from 0 to 1, and calculate_split_probability does as well, for
every predictor state and every contact dictionary. -/
theorem claim_C2_probabilities_in_unit_interval :
    ∀ (p : ContactAIPredictor) (c1 c2 c : PContact),
      0 ≤ (p.calculate_merge_probability c1 c2).2
      ∧ (p.calculate_merge_probability c1 c2).2 ≤ 1
      ∧ 0 ≤ (p.calculate_split_probability c).2
      ∧ (p.calculate_split_probability c).2 ≤ 1 := by
  intro p c1 c2 c
  have hm : 0 ≤ merge_probability_val c1 c2 ∧ merge_probability_val c1 c2 ≤ 1 := by
    unfold merge_probability_val
    obtain ⟨a1, a2⟩ := name_match_score_bounds c1.fullName c2.fullName
    obtain ⟨b1, b2⟩ := email_overlap_score_bounds (contact_email_set c1) (contact_email_set c2)
    obtain ⟨d1, d2⟩ := phone_overlap_score_bounds (contact_phone_set c1) (contact_phone_set c2)
    obtain ⟨e1, e2⟩ := org_match_score_bounds c1.organization c2.organization
    obtain ⟨f1, f2⟩ := related_overlap_score_bounds (contact_related_set c1) (contact_related_set c2)
    rw [if_pos (by norm_num)]
    constructor
    · apply div_nonneg (by linarith) (by norm_num)
    · rw [div_le_one (by norm_num)]
      linarith
  have hs : 0 ≤ split_probability_val c ∧ split_probability_val c ≤ 1 := by
    unfold split_probability_val
    constructor
    · apply le_min _ zero_le_one
      split_ifs <;> norm_num
    · exact min_le_right _ _
  exact ⟨hm.1, hm.2, hs.1, hs.2⟩

/-- C8: calculate_merge_probability is commutative in its two contact
arguments, for every predictor state. -/
theorem claim_C8_merge_probability_commutative :
    ∀ (p : ContactAIPredictor) (c1 c2 : PContact),
      (p.calculate_merge_probability c1 c2).2 = (p.calculate_merge_probability c2 c1).2 := by
  intro p c1 c2
  simp only [ContactAIPredictor.calculate_merge_probability, merge_probability_val]
  rw [name_match_score_comm, email_overlap_score_comm, phone_overlap_score_comm,
    org_match_score_comm, related_overlap_score_comm]

/-- C5: the two probability methods are stateless.  They leave the three
feedback-pattern fields untouched and their value does not depend on the
predictor state, in particular not on any feedback previously accumulated
through learn_from_feedback. -/
theorem claim_C5_predictor_methods_stateless :
    ∀ (p q : ContactAIPredictor) (c1 c2 c : PContact),
      (p.calculate_merge_probability c1 c2).1 = p
      ∧ (p.calculate_split_probability c).1 = p
      ∧ (p.calculate_merge_probability c1 c2).2 = (q.calculate_merge_probability c1 c2).2
      ∧ (p.calculate_split_probability c).2 = (q.calculate_split_probability c).2 := by
  intro p q c1 c2 c
  exact ⟨rfl, rfl, rfl, rfl⟩

/-! ## JSON values

The history service stores before/after snapshots as JSON text
(json.dumps) and the undo path parses them back (json.loads).  JSON
values are modelled by the inductive JVal; numbers are modelled as
integers (no float in any stored snapshot matters to the claims) and
the serializer uses the default Python separators.
-/

/-- JSON values as handled by json.dumps / json.loads. -/
inductive JVal where
  | jnull : JVal
  | jbool : Bool → JVal
  | jnum : Int → JVal
  | jstr : String → JVal
  | jarr : List JVal → JVal
  | jobj : List (String × JVal) → JVal

/-- Python truthiness of a JSON value, used by log_action through
the expression if before_data else None. -/
def JVal.py_truthy : JVal → Bool
  | .jnull => false
  | .jbool b => b
  | .jnum n => n != 0
  | .jstr s => s ≠ ""
  | .jarr xs => !xs.isEmpty
  | .jobj fs => !fs.isEmpty

/-- Escape of one character inside a serialized JSON string (the common
cases of the Python encoder; exotic control characters do not occur in
the repository data). -/
def json_escape_char (c : Char) : List Char :=
  if c = '"' then ['\\', '"']
  else if c = '\\' then ['\\', '\\']
  else if c = '\n' then ['\\', 'n']
  else if c = '\t' then ['\\', 't']
  else if c = '\r' then ['\\', 'r']
  else [c]

/-- Serialized form of a JSON string literal. -/
def json_quote (s : String) : String :=
  "\"" ++ String.mk (s.toList.flatMap json_escape_char) ++ "\""

mutual

/-- Embeds json.dumps with the default separators of Python. -/
def json_dumps : JVal → String
  | .jnull => "null"
  | .jbool true => "true"
  | .jbool false => "false"
  | .jnum n => toString n
  | .jstr s => json_quote s
  | .jarr xs => "[" ++ json_dumps_list xs ++ "]"
  | .jobj fs => "\x7b" ++ json_dumps_fields fs ++ "\x7d"

/-- Comma-separated serialization of array items. -/
def json_dumps_list : List JVal → String
  | [] => ""
  | [x] => json_dumps x
  | x :: y :: rest => json_dumps x ++ ", " ++ json_dumps_list (y :: rest)

/-- Comma-separated serialization of object members. -/
def json_dumps_fields : List (String × JVal) → String
  | [] => ""
  | [kv] => json_quote kv.1 ++ ": " ++ json_dumps kv.2
  | kv :: kw :: rest =>
      json_quote kv.1 ++ ": " ++ json_dumps kv.2 ++ ", " ++ json_dumps_fields (kw :: rest)

end

/-- Whitespace skipping of the JSON grammar. -/
def json_ws : List Char → List Char
  | c :: cs => if c = ' ' ∨ c = '\t' ∨ c = '\n' ∨ c = '\r' then json_ws cs else c :: cs
  | [] => []

/-- Greedy digit run with its numeric value. -/
def json_digits (acc : Nat) : List Char → Nat × List Char
  | c :: cs => if c.isDigit then json_digits (acc * 10 + (c.toNat - 48)) cs else (acc, c :: cs)
  | [] => (acc, [])

/-- Parse of a JSON string body after the opening quote, up to and past
the closing quote.  Supports the simple escapes; unicode escapes are
consumed as four hex digits without surrogate pairing. -/
def json_string_body (fuel : Nat) (cs : List Char) : Option (List Char × List Char) :=
  match fuel, cs with
  | 0, _ => none
  | _, [] => none
  | fuel + 1, c :: rest =>
    if c = '"' then some ([], rest)
    else if c = '\\' then
      match rest with
      | [] => none
      | e :: rest2 =>
        let dec : Option Char :=
          if e = '"' then some '"'
          else if e = '\\' then some '\\'
          else if e = '/' then some '/'
          else if e = 'n' then some '\n'
          else if e = 't' then some '\t'
          else if e = 'r' then some '\r'
          else if e = 'b' then some (Char.ofNat 8)
          else if e = 'f' then some (Char.ofNat 12)
          else none
        match dec with
        | some d =>
          match json_string_body fuel rest2 with
          | some (body, rem) => some (d :: body, rem)
          | none => none
        | none => none
    else
      match json_string_body fuel rest with
      | some (body, rem) => some (c :: body, rem)
      | none => none

mutual

/-- Fuel-indexed recursive-descent parser for JSON values, embedding
json.loads.  Fractional and exponent number forms are rejected; no
snapshot the services store contains them. -/
def json_parse : Nat → List Char → Option (JVal × List Char)
  | 0, _ => none
  | fuel + 1, cs =>
    match json_ws cs with
    | [] => none
    | c :: rest =>
      if c = '{' then
        match json_ws rest with
        | '}' :: rest2 => some (.jobj [], rest2)
        | other => json_parse_members fuel other
      else if c = '[' then
        match json_ws rest with
        | ']' :: rest2 => some (.jarr [], rest2)
        | other => json_parse_items fuel other
      else if c = '"' then
        match json_string_body (rest.length + 1) rest with
        | some (body, rem) => some (.jstr (String.mk body), rem)
        | none => none
      else if c = 't' then
        match rest with
        | 'r' :: 'u' :: 'e' :: rest2 => some (.jbool true, rest2)
        | _ => none
      else if c = 'f' then
        match rest with
        | 'a' :: 'l' :: 's' :: 'e' :: rest2 => some (.jbool false, rest2)
        | _ => none
      else if c = 'n' then
        match rest with
        | 'u' :: 'l' :: 'l' :: rest2 => some (.jnull, rest2)
        | _ => none
      else if c = '-' then
        match rest with
        | d :: _ =>
          if d.isDigit then
            let (n, rem) := json_digits 0 rest
            match rem with
            | e :: _ => if e = '.' ∨ e = 'e' ∨ e = 'E' then none
                        else some (.jnum (-(n : Int)), rem)
            | [] => some (.jnum (-(n : Int)), [])
          else none
        | [] => none
      else if c.isDigit then
        let (n, rem) := json_digits 0 (c :: rest)
        match rem with
        | e :: _ => if e = '.' ∨ e = 'e' ∨ e = 'E' then none
                    else some (.jnum (n : Int), rem)
        | [] => some (.jnum (n : Int), [])
      else none

/-- Parse of the members of a non-empty JSON object, after the opening
brace and leading whitespace. -/
def json_parse_members : Nat → List Char → Option (JVal × List Char)
  | 0, _ => none
  | fuel + 1, cs =>
    match cs with
    | '"' :: rest =>
      match json_string_body (rest.length + 1) rest with
      | some (key, rem) =>
        match json_ws rem with
        | ':' :: rem2 =>
          match json_parse fuel rem2 with
          | some (v, rem3) =>
            match json_ws rem3 with
            | ',' :: rem4 =>
              match json_parse_members fuel (json_ws rem4) with
              | some (.jobj fs, rem5) => some (.jobj ((String.mk key, v) :: fs), rem5)
              | _ => none
            | '}' :: rem4 => some (.jobj [(String.mk key, v)], rem4)
            | _ => none
          | none => none
        | _ => none
      | none => none
    | _ => none

/-- Parse of the items of a non-empty JSON array, after the opening
bracket and leading whitespace. -/
def json_parse_items : Nat → List Char → Option (JVal × List Char)
  | 0, _ => none
  | fuel + 1, cs =>
    match json_parse fuel cs with
    | some (v, rem) =>
      match json_ws rem with
      | ',' :: rem2 =>
        match json_parse_items fuel rem2 with
        | some (.jarr vs, rem3) => some (.jarr (v :: vs), rem3)
        | _ => none
      | ']' :: rem2 => some (.jarr [v], rem2)
      | _ => none
    | none => none

end

/-- Embeds json.loads: parse one value and require only whitespace after
it; None models a raised json.JSONDecodeError. -/
def json_loads (s : String) : Option JVal :=
  match json_parse (2 * s.length + 4) s.toList with
  | some (v, rest) => if json_ws rest = [] then some v else none
  | none => none

/-! ## ContactHistory rows and HistoryService (src/services/history_service.py)

The contact_history table is modelled as a list of rows in insertion
order together with the next autoincrement id.  The timestamp column is
server-generated and monotone in insertion order, so ordering by
timestamp descending is modelled by reversing the filtered row list;
the column itself carries no information the claims need and is left
out of the row model.
-/

/-- One row of the contact_history table
(src/models/contact_history.py). -/
structure ContactHistory where
  id : Nat
  user_id : Nat
  contact_id : String
  action_type : String
  before_data : Option String
  after_data : Option String
  description : String
  ip_address : Option String
  user_agent : Option String
deriving DecidableEq

/-- The database state seen by HistoryService. -/
structure HistoryDB where
  entries : List ContactHistory
  next_id : Nat
deriving DecidableEq

/-- The request_info dictionary read by log_action. -/
structure RequestInfo where
  ip_address : Option String
  user_agent : Option String
deriving DecidableEq

/-- Embeds the expression json.dumps(d, default=str) if d else None of
log_action: a falsy snapshot (None or an empty container) is stored as
NULL, anything else as its JSON text. -/
def dumps_if_truthy (d : Option JVal) : Option String :=
  match d with
  | none => none
  | some v => if v.py_truthy then some (json_dumps v) else none

/-- Embeds HistoryService.log_action: build a ContactHistory row from the
arguments, add and commit it.  Returns the new state and the row.  The
description defaults to the capitalized action type when the argument is
falsy, as in description or f-string. -/
def HistoryService.log_action (db : HistoryDB) (user_id : Nat) (contact_id : String)
    (action_type : String) (before_data after_data : Option JVal)
    (description : Option String) (request_info : Option RequestInfo) :
    HistoryDB × ContactHistory :=
  let desc :=
    match description with
    | some d => if d ≠ "" then d else py_capitalize action_type ++ " contact"
    | none => py_capitalize action_type ++ " contact"
  let entry : ContactHistory :=
    { id := db.next_id
      user_id := user_id
      contact_id := contact_id
      action_type := action_type
      before_data := dumps_if_truthy before_data
      after_data := dumps_if_truthy after_data
      description := desc
      ip_address := request_info.bind (fun r => r.ip_address)
      user_agent := request_info.bind (fun r => r.user_agent) }
  ({ entries := db.entries ++ [entry], next_id := db.next_id + 1 }, entry)

/-- Embeds HistoryService.get_contact_history: rows of the user and
contact ordered by timestamp descending, limited. -/
def HistoryService.get_contact_history (db : HistoryDB) (user_id : Nat)
    (contact_id : String) (limit : Nat) : List ContactHistory :=
  ((db.entries.filter (fun h => h.user_id == user_id && h.contact_id == contact_id)).reverse).take limit

/-- Embeds HistoryService.get_user_history. -/
def HistoryService.get_user_history (db : HistoryDB) (user_id : Nat)
    (limit : Nat) : List ContactHistory :=
  ((db.entries.filter (fun h => h.user_id == user_id)).reverse).take limit

/-- Embeds HistoryService.get_recent_actions; a falsy action_types
argument (None or the empty list) applies no type filter. -/
def HistoryService.get_recent_actions (db : HistoryDB) (user_id : Nat)
    (action_types : Option (List String)) (limit : Nat) : List ContactHistory :=
  let base := db.entries.filter (fun h => h.user_id == user_id)
  let filtered :=
    match action_types with
    | none => base
    | some ts => if ts.isEmpty then base else base.filter (fun h => ts.contains h.action_type)
  (filtered.reverse).take limit

/-- Result dictionary of HistoryService.undo_action. -/
inductive UndoResult where
  | ok : JVal → String → UndoResult
  | err : String → UndoResult

/-- Embeds the first-matching-row query of undo_action. -/
def HistoryDB.findEntry (db : HistoryDB) (user_id history_id : Nat) :
    Option ContactHistory :=
  db.entries.find? (fun h => h.id == history_id && h.user_id == user_id)

/-- Embeds HistoryService.undo_action.  A json.loads failure raised inside
the try block is caught and reported as a failure dictionary whose message
text (str(e)) is abstracted to the constant JSONDecodeError. -/
def HistoryService.undo_action (db : HistoryDB) (user_id history_id : Nat) :
    HistoryDB × UndoResult :=
  match db.findEntry user_id history_id with
  | none => (db, .err "History entry not found")
  | some h =>
    match h.before_data with
    | none => (db, .err "No before data available for undo")
    | some bs =>
      if bs = "" then (db, .err "No before data available for undo")
      else
        match json_loads bs with
        | none => (db, .err "JSONDecodeError")
        | some before =>
          let after_parsed : Option (Option JVal) :=
            match h.after_data with
            | none => some none
            | some as_ => if as_ = "" then some none else (json_loads as_).map some
          match after_parsed with
          | none => (db, .err "JSONDecodeError")
          | some av =>
            let logged := HistoryService.log_action db user_id h.contact_id "undo"
              av (some before) (some ("Undo " ++ h.action_type)) none
            (logged.1, .ok before h.action_type)

/-- Embeds HistoryService.create_backup: one row with contact_id BACKUP,
action_type backup and the dumped contact list as after_data. -/
def HistoryService.create_backup (db : HistoryDB) (user_id : Nat)
    (contacts_data : List JVal) : HistoryDB × ContactHistory :=
  let entry : ContactHistory :=
    { id := db.next_id
      user_id := user_id
      contact_id := "BACKUP"
      action_type := "backup"
      before_data := none
      after_data := some (json_dumps (.jarr contacts_data))
      description := "Backup of " ++ toString contacts_data.length ++ " contacts"
      ip_address := none
      user_agent := none }
  ({ entries := db.entries ++ [entry], next_id := db.next_id + 1 }, entry)

/-- Embeds HistoryService.get_backups. -/
def HistoryService.get_backups (db : HistoryDB) (user_id : Nat)
    (limit : Nat) : List ContactHistory :=
  ((db.entries.filter (fun h =>
    h.user_id == user_id && h.contact_id == "BACKUP" && h.action_type == "backup")).reverse).take limit

/-- The operations offered by HistoryService, one constructor per public
method. -/
inductive HistOp where
  | logAction : Nat → String → String → Option JVal → Option JVal →
      Option String → Option RequestInfo → HistOp
  | getContactHistory : Nat → String → Nat → HistOp
  | getUserHistory : Nat → Nat → HistOp
  | getRecentActions : Nat → Option (List String) → Nat → HistOp
  | undoAction : Nat → Nat → HistOp
  | createBackup : Nat → List JVal → HistOp
  | getBackups : Nat → Nat → HistOp

/-- State transition of one HistoryService operation: the read-only
methods leave the state as is, the writers return their new state. -/
def applyHistOp (db : HistoryDB) : HistOp → HistoryDB
  | .logAction uid cid at_ bd ad d ri => (HistoryService.log_action db uid cid at_ bd ad d ri).1
  | .getContactHistory _ _ _ => db
  | .getUserHistory _ _ => db
  | .getRecentActions _ _ _ => db
  | .undoAction uid hid => (HistoryService.undo_action db uid hid).1
  | .createBackup uid cd => (HistoryService.create_backup db uid cd).1
  | .getBackups _ _ => db

/-- The rows an operation appends past the pre-existing ones. -/
def appendedEntries (db : HistoryDB) (op : HistOp) : List ContactHistory :=
  (applyHistOp db op).entries.drop db.entries.length

/-! ## Append-only behaviour of the history log -/

/-- State effect of undo_action: either nothing, or exactly one appended
row of action_type undo. -/
theorem undo_action_state (db : HistoryDB) (uid hid : Nat) :
    (HistoryService.undo_action db uid hid).1 = db
    ∨ ∃ e, (HistoryService.undo_action db uid hid).1.entries = db.entries ++ [e]
        ∧ e.action_type = "undo" := by
  unfold HistoryService.undo_action
  split
  · left; rfl
  · split
    · left; rfl
    · split
      · left; rfl
      · split
        · left; rfl
        · dsimp only
          split
          · left; rfl
          · right; exact ⟨_, rfl, rfl⟩

/-- Decomposition of every HistoryService operation as pure appending. -/
theorem applyHistOp_append (db : HistoryDB) (op : HistOp) :
    ∃ t, (applyHistOp db op).entries = db.entries ++ t
      ∧ (∀ uid hid, op = HistOp.undoAction uid hid →
          ∀ e ∈ t, e.action_type = "undo") := by
  cases op with
  | logAction uid cid at_ bd ad d ri =>
      refine ⟨_, rfl, ?_⟩
      intro uid hid h
      cases h
  | getContactHistory uid cid lim =>
      refine ⟨[], by simp [applyHistOp], ?_⟩
      intro uid hid h
      cases h
  | getUserHistory uid lim =>
      refine ⟨[], by simp [applyHistOp], ?_⟩
      intro uid hid h
      cases h
  | getRecentActions uid ts lim =>
      refine ⟨[], by simp [applyHistOp], ?_⟩
      intro uid hid h
      cases h
  | undoAction uid hid =>
      rcases undo_action_state db uid hid with h | ⟨e, he, hact⟩
      · refine ⟨[], by simp [applyHistOp, h], ?_⟩
        intro uid2 hid2 heq e2 he2
        cases he2
      · refine ⟨[e], by simpa [applyHistOp] using he, ?_⟩
        intro uid2 hid2 heq e2 he2
        have he3 : e2 = e := List.mem_singleton.mp he2
        rw [he3]
        exact hact
  | createBackup uid cd =>
      refine ⟨_, rfl, ?_⟩
      intro uid hid h
      cases h
  | getBackups uid lim =>
      refine ⟨[], by simp [applyHistOp], ?_⟩
      intro uid hid h
      cases h

/-- C3: the contact history log is append-only.  Every HistoryService
operation extends the row list by new rows only — pre-existing rows are
neither modified nor deleted — and the rows appended by undo_action all
have action_type undo, so an undone entry stays in the log. -/
theorem claim_C3_history_append_only :
    ∀ (db : HistoryDB) (op : HistOp),
      (applyHistOp db op).entries = db.entries ++ appendedEntries db op
      ∧ (∀ uid hid, op = HistOp.undoAction uid hid →
          ∀ e ∈ appendedEntries db op, e.action_type = "undo") := by
  intro db op
  obtain ⟨t, ht, hu⟩ := applyHistOp_append db op
  have hdrop : appendedEntries db op = t := by
    simp only [appendedEntries, ht, List.drop_left]
  constructor
  · rw [hdrop, ht]
  · intro uid hid heq e he
    rw [hdrop] at he
    exact hu uid hid heq e he

/-- Concrete history state used to witness the append-only theorem. -/
def c3_entry : ContactHistory :=
  { id := 1, user_id := 1, contact_id := "c1", action_type := "update"
    before_data := some "{}", after_data := none
    description := "Update contact", ip_address := none, user_agent := none }

/-- Concrete database with one undoable row. -/
def c3_db : HistoryDB := { entries := [c3_entry], next_id := 2 }

/-- The row undo_action appends on c3_db. -/
def c3_undo_entry : ContactHistory :=
  { id := 2, user_id := 1, contact_id := "c1", action_type := "undo"
    before_data := none, after_data := none
    description := "Undo update", ip_address := none, user_agent := none }

/-- Witness for C3: on a concrete database, undo_action appends exactly
one row and that row has action_type undo. -/
theorem claim_C3_history_append_only_witness :
    (applyHistOp c3_db (HistOp.undoAction 1 1)).entries
      = c3_db.entries ++ appendedEntries c3_db (HistOp.undoAction 1 1)
    ∧ c3_undo_entry.action_type = "undo" :=
  ⟨(claim_C3_history_append_only c3_db (HistOp.undoAction 1 1)).1,
   (claim_C3_history_append_only c3_db (HistOp.undoAction 1 1)).2 1 1 rfl
     c3_undo_entry (by decide)⟩

/-! ## Return value of undo_action -/

/-- A stored after_data snapshot that does not break json.loads: absent,
empty, or parseable. -/
def after_data_parse_ok (h : ContactHistory) : Prop :=
  ∀ s, h.after_data = some s → s ≠ "" → (json_loads s).isSome = true

/-- C4 (amended): undo_action returns the not-found error exactly when no
row matches, the no-before-data error when the matching row has an absent
or empty before_data, and a success dictionary carrying the parsed
before_data exactly when the before_data is non-empty and parseable AND
the non-empty after_data of the row, if any, is parseable as well — a
json.loads failure on either snapshot is caught and reported as a failure
dictionary instead. -/
theorem claim_C4_undo_action_result :
    ∀ (db : HistoryDB) (uid hid : Nat),
      (db.findEntry uid hid = none →
        (HistoryService.undo_action db uid hid).2 = .err "History entry not found")
      ∧ (∀ h, db.findEntry uid hid = some h →
          (h.before_data = none ∨ h.before_data = some "") →
          (HistoryService.undo_action db uid hid).2 = .err "No before data available for undo")
      ∧ (∀ h v, db.findEntry uid hid = some h →
          ((HistoryService.undo_action db uid hid).2 = UndoResult.ok v h.action_type ↔
            (∃ bs, h.before_data = some bs ∧ bs ≠ "" ∧ json_loads bs = some v)
              ∧ after_data_parse_ok h)) := by
  intro db uid hid
  refine ⟨?_, ?_, ?_⟩
  · intro hf
    unfold HistoryService.undo_action
    rw [hf]
  · intro h hf hbad
    unfold HistoryService.undo_action
    rw [hf]
    dsimp only
    rcases hbad with hb | hb <;> rw [hb]
    rfl
  · intro h v hf
    unfold HistoryService.undo_action
    rw [hf]
    dsimp only
    cases hbd : h.before_data with
    | none =>
      dsimp only
      constructor
      · intro hx
        exact UndoResult.noConfusion hx
      · rintro ⟨⟨bs, hbs, hne, hl⟩, hok⟩
        cases hbs
    | some bs =>
      dsimp only
      by_cases hbe : bs = ""
      · rw [if_pos hbe]
        constructor
        · intro hx
          exact UndoResult.noConfusion hx
        · rintro ⟨⟨bs2, hbs2, hne2, hl2⟩, hok⟩
          cases hbs2
          exact absurd hbe hne2
      · rw [if_neg hbe]
        cases hjl : json_loads bs with
        | none =>
          dsimp only
          constructor
          · intro hx
            exact UndoResult.noConfusion hx
          · rintro ⟨⟨bs2, hbs2, hne2, hl2⟩, hok⟩
            cases hbs2
            rw [hjl] at hl2
            cases hl2
        | some before =>
          cases had : h.after_data with
          | none =>
            dsimp only
            constructor
            · intro hx
              injection hx with h1 h2
              refine ⟨⟨bs, rfl, hbe, by rw [hjl, h1]⟩, ?_⟩
              intro s hs hsne
              rw [had] at hs
              cases hs
            · rintro ⟨⟨bs2, hbs2, hne2, hl2⟩, hok⟩
              cases hbs2
              rw [hjl] at hl2
              cases hl2
              rfl
          | some as_ =>
            dsimp only
            by_cases hae : as_ = ""
            · rw [if_pos hae]
              dsimp only
              constructor
              · intro hx
                injection hx with h1 h2
                refine ⟨⟨bs, rfl, hbe, by rw [hjl, h1]⟩, ?_⟩
                intro s hs hsne
                rw [had] at hs
                cases hs
                exact absurd hae hsne
              · rintro ⟨⟨bs2, hbs2, hne2, hl2⟩, hok⟩
                cases hbs2
                rw [hjl] at hl2
                cases hl2
                rfl
            · rw [if_neg hae]
              cases hal : json_loads as_ with
              | none =>
                constructor
                · intro hx
                  exact UndoResult.noConfusion hx
                · rintro ⟨hex, hok⟩
                  have hcontra : (json_loads as_).isSome = true := hok as_ had hae
                  rw [hal] at hcontra
                  cases hcontra
              | some av =>
                constructor
                · intro hx
                  injection hx with h1 h2
                  refine ⟨⟨bs, rfl, hbe, by rw [hjl, h1]⟩, ?_⟩
                  intro s hs hsne
                  rw [had] at hs
                  cases hs
                  rw [hal]
                  rfl
                · rintro ⟨⟨bs2, hbs2, hne2, hl2⟩, hok⟩
                  cases hbs2
                  rw [hjl] at hl2
                  cases hl2
                  rfl

/-- Row with a parseable before snapshot and no after snapshot. -/
def c4_entry : ContactHistory :=
  { id := 1, user_id := 1, contact_id := "c1", action_type := "update"
    before_data := some "{}", after_data := none
    description := "Update contact", ip_address := none, user_agent := none }

/-- Database holding only c4_entry. -/
def c4_db : HistoryDB := { entries := [c4_entry], next_id := 2 }

/-- Witness for C4: on the concrete database c4_db, the matching entry
exists with non-empty parseable before_data and undo_action succeeds with
the parsed snapshot. -/
theorem claim_C4_undo_action_result_witness :
    c4_db.findEntry 1 1 = some c4_entry
    ∧ (HistoryService.undo_action c4_db 1 1).2 = UndoResult.ok (JVal.jobj []) "update" :=
  ⟨rfl,
   ((claim_C4_undo_action_result c4_db 1 1).2.2 c4_entry (JVal.jobj []) rfl).mpr
     ⟨⟨"{}", rfl, by decide, rfl⟩, fun s hs => by cases hs⟩⟩

/-- Row whose before snapshot parses but whose after snapshot is a
non-empty malformed JSON text. -/
def c4x_entry : ContactHistory :=
  { id := 1, user_id := 1, contact_id := "c1", action_type := "update"
    before_data := some "{}", after_data := some "\x7b"
    description := "Update contact", ip_address := none, user_agent := none }

/-- Database holding only c4x_entry. -/
def c4x_db : HistoryDB := { entries := [c4x_entry], next_id := 2 }

/-- Counterexample to C4 as stated: the database c4x_db has an entry with
id 1 for user 1 whose before_data is non-empty and parseable, yet
undo_action does not return success with the parsed before data — it
fails, because json.loads also runs on the malformed after_data. -/
theorem claim_C4_undo_action_result_counterexample :
    c4x_db.findEntry 1 1 = some c4x_entry
    ∧ c4x_entry.before_data = some "{}"
    ∧ json_loads "{}" = some (JVal.jobj [])
    ∧ (HistoryService.undo_action c4x_db 1 1).2 = UndoResult.err "JSONDecodeError"
    ∧ (HistoryService.undo_action c4x_db 1 1).2 ≠ UndoResult.ok (JVal.jobj []) "update" := by
  refine ⟨rfl, rfl, rfl, rfl, ?_⟩
  have h4 : (HistoryService.undo_action c4x_db 1 1).2 = UndoResult.err "JSONDecodeError" := rfl
  rw [h4]
  intro hx
  exact UndoResult.noConfusion hx

/-! ## Session auth middleware (src/middleware/auth_middleware.py) -/

/-- A row of the users table as read by login_required. -/
structure AuthUser where
  id : Nat
  email : String
deriving DecidableEq

/-- Outcome of a request through the login_required decorator: either an
early JSON response with a status code and a success flag, or the wrapped
handler running with g.user_id and g.user_email populated. -/
inductive RouteResult (α : Type) where
  | response : Nat → Bool → String → RouteResult α
  | handled : Nat → String → α → RouteResult α

/-- Embeds the decorated function produced by login_required: reject with
401 when the session holds no truthy user_id (None or 0 are falsy), look
the user up, reject with 401 when no row matches, otherwise set g.user_id
and g.user_email from the row and run the wrapped handler. -/
def login_required {α : Type} (users : List AuthUser) (session_user_id : Option Nat)
    (handler : Nat → String → α) : RouteResult α :=
  match session_user_id with
  | none => .response 401 false "Unauthorized"
  | some uid =>
    if uid = 0 then .response 401 false "Unauthorized"
    else
      match users.find? (fun u => u.id == uid) with
      | none => .response 401 false "User not found"
      | some u => .handled u.id u.email (handler u.id u.email)

/-- C6: a request with no truthy session user_id, or whose session user_id
matches no users row, is answered 401 with success False and the wrapped
handler never runs (the result is an early response for every handler);
otherwise the handler runs with g.user_id and g.user_email taken from the
matched row. -/
theorem claim_C6_login_required_gate :
    ∀ (α : Type) (users : List AuthUser) (sess : Option Nat) (f : Nat → String → α),
      ((sess = none ∨ sess = some 0) →
        login_required users sess f = .response 401 false "Unauthorized")
      ∧ (∀ uid, sess = some uid → uid ≠ 0 →
          users.find? (fun u => u.id == uid) = none →
          login_required users sess f = .response 401 false "User not found")
      ∧ (∀ uid u, sess = some uid → uid ≠ 0 →
          users.find? (fun u => u.id == uid) = some u →
          login_required users sess f = .handled u.id u.email (f u.id u.email)) := by
  intro α users sess f
  refine ⟨?_, ?_, ?_⟩
  · rintro (h | h) <;> rw [h] <;> rfl
  · intro uid hs hne hfind
    rw [hs]
    unfold login_required
    dsimp only
    rw [if_neg hne, hfind]
  · intro uid u hs hne hfind
    rw [hs]
    unfold login_required
    dsimp only
    rw [if_neg hne, hfind]

/-- Witness for C6: concretely, a missing session is rejected 401 and a
matching session runs the handler with the row data. -/
theorem claim_C6_login_required_gate_witness :
    login_required [AuthUser.mk 7 "a@b.c"] none (fun n _ => n)
      = RouteResult.response 401 false "Unauthorized"
    ∧ login_required [AuthUser.mk 7 "a@b.c"] (some 7) (fun n _ => n)
      = RouteResult.handled 7 "a@b.c" 7 :=
  ⟨(claim_C6_login_required_gate Nat [AuthUser.mk 7 "a@b.c"] none (fun n _ => n)).1
     (Or.inl rfl),
   (claim_C6_login_required_gate Nat [AuthUser.mk 7 "a@b.c"] (some 7) (fun n _ => n)).2.2
     7 (AuthUser.mk 7 "a@b.c") rfl (by decide) (by decide)⟩

/-! ## ContactManagementService (src/services/contact_management_service.py)

The contacts table is modelled as a list of rows plus a fresh-id counter,
next to the history state.  The JSON columns emails/phones (lists of
value dictionaries), tags and related_names (lists of strings) are
modelled with the element shapes the application writes into them.
-/

/-- A row of the contacts table as used by ContactManagementService. -/
structure MContact where
  id : Nat
  user_id : Nat
  full_name : Option String
  first_name : Option String
  last_name : Option String
  organization : Option String
  title : Option String
  emails : List EPEntry
  phones : List EPEntry
  notes : Option String
  tags : List String
  related_names : List String
  explorium_data : Option String
deriving DecidableEq

/-- The incoming contact_data dictionary of create_contact, read through
dict.get with the defaults the service supplies. -/
structure ContactData where
  full_name : Option String
  first_name : Option String
  last_name : Option String
  organization : Option String
  title : Option String
  emails : List EPEntry
  phones : List EPEntry
  notes : Option String
  tags : List String
  related_names : List String
  explorium_data : Option String
deriving DecidableEq

/-- Combined database state of the contact management service. -/
structure AppDB where
  contacts : List MContact
  history : HistoryDB
  next_contact_id : Nat
deriving DecidableEq

/-- Service results: the success / failure dictionaries returned by the
ContactManagementService methods. -/
inductive SvcResult where
  | success : Option MContact → SvcResult
  | failure : String → SvcResult
deriving DecidableEq

/-- Representation of an Option String column inside a JSON snapshot. -/
def jopt : Option String → JVal
  | none => .jnull
  | some s => .jstr s

/-- Embeds Contact.to_dict restricted to the data columns (the timestamp
columns are server-generated and irrelevant to every claim). -/
def contact_to_dict (c : MContact) : JVal :=
  .jobj
    [ ("id", .jnum (c.id : Int))
    , ("user_id", .jnum (c.user_id : Int))
    , ("full_name", jopt c.full_name)
    , ("first_name", jopt c.first_name)
    , ("last_name", jopt c.last_name)
    , ("organization", jopt c.organization)
    , ("title", jopt c.title)
    , ("emails", .jarr (c.emails.map (fun e => .jobj [("value", .jstr e.value)])))
    , ("phones", .jarr (c.phones.map (fun p => .jobj [("value", .jstr p.value)])))
    , ("notes", jopt c.notes)
    , ("tags", .jarr (c.tags.map JVal.jstr))
    , ("related_names", .jarr (c.related_names.map JVal.jstr)) ]

/-- The keyword parameter names accepted by HistoryService.log_action
(self excluded), from its def line in history_service.py. -/
def log_action_param_names : List String :=
  ["user_id", "contact_id", "action_type", "before_data", "after_data",
   "description", "request_info"]

/-- The keyword argument names passed by
ContactManagementService._log_history at its call of log_action. -/
def log_history_call_kwargs : List String :=
  ["contact_id", "user_id", "action", "before_data", "after_data",
   "timestamp", "request_info"]

/-- Python keyword binding: a call binds only when every keyword argument
name is an accepted parameter name (an unexpected keyword argument raises
TypeError before the callee body runs). -/
def kwargs_accepted (params call_kwargs : List String) : Bool :=
  call_kwargs.all (fun k => params.contains k)

/-- Embeds ContactManagementService._log_history.  The call site passes
the keyword arguments action and timestamp, which log_action does not
accept, so in Python the call raises TypeError before anything is
logged; the model returns that exception as an error.  Were the binding
accepted, the entry would be logged with the doubly-encoded snapshots the
call site builds. -/
def ContactManagementService.log_history (db : AppDB) (user_id : Nat)
    (contact_id : Nat) (action : String) (before_data after_data : JVal) :
    Except String AppDB :=
  if kwargs_accepted log_action_param_names log_history_call_kwargs then
    let logged := HistoryService.log_action db.history user_id (toString contact_id)
      action (some (.jstr (json_dumps before_data))) (some (.jstr (json_dumps after_data)))
      none none
    .ok { db with history := logged.1 }
  else
    .error "TypeError: log_action() got an unexpected keyword argument"

/-- Embeds ContactManagementService.create_contact: build the row from
contact_data, add and commit it, then call _log_history with an empty
before snapshot — which raises, so the method never returns its success
dictionary and the new row is left committed without any history entry. -/
def ContactManagementService.create_contact (db : AppDB) (user_id : Nat)
    (contact_data : ContactData) : AppDB × Except String SvcResult :=
  let new_contact : MContact :=
    { id := db.next_contact_id
      user_id := user_id
      full_name := contact_data.full_name
      first_name := contact_data.first_name
      last_name := contact_data.last_name
      organization := contact_data.organization
      title := contact_data.title
      emails := contact_data.emails
      phones := contact_data.phones
      notes := contact_data.notes
      tags := contact_data.tags
      related_names := contact_data.related_names
      explorium_data := contact_data.explorium_data }
  let db1 : AppDB :=
    { db with contacts := db.contacts ++ [new_contact]
              next_contact_id := db.next_contact_id + 1 }
  match ContactManagementService.log_history db1 user_id new_contact.id "create"
      (.jobj []) (contact_to_dict new_contact) with
  | .error e => (db1, .error e)
  | .ok db2 => (db2, .ok (.success (some new_contact)))

/-- Embeds the field merging loop body of merge_contacts for one other
contact merged into the primary. -/
def merge_into (p other : MContact) : MContact :=
  { p with
    emails := p.emails ++ other.emails.filter (fun e => ¬ p.emails.contains e)
    phones := p.phones ++ other.phones.filter (fun ph => ¬ p.phones.contains ph)
    tags := p.tags ++ other.tags.filter (fun t => ¬ p.tags.contains t)
    notes := some ((p.notes.getD "") ++
      (match other.notes with
       | some n => if n ≠ "" then
            "\nMerged from contact ID " ++ toString other.id ++ ": " ++ n
          else ""
       | none => "")) }

/-- Logging-and-deleting loop over the merged-away contacts; the state at
the point of a raised TypeError is kept, as in Python. -/
def merge_delete_loop (user_id : Nat) :
    AppDB → List MContact → AppDB × Option String
  | db, [] => (db, none)
  | db, other :: rest =>
    match ContactManagementService.log_history db user_id other.id "merge_deleted"
        (contact_to_dict other) (.jobj []) with
    | .error e => (db, some e)
    | .ok db2 =>
      merge_delete_loop user_id
        { db2 with contacts := db2.contacts.filter (fun c => c.id ≠ other.id) } rest

/-- Embeds ContactManagementService.merge_contacts: query the contacts of
the user among contact_ids, fail early when fewer than two match, merge
the others into the first matched contact, commit, then log — where the
broken _log_history call raises, leaving the merged primary committed and
the other contacts undeleted. -/
def ContactManagementService.merge_contacts (db : AppDB) (user_id : Nat)
    (contact_ids : List Nat) : AppDB × Except String SvcResult :=
  let contacts_to_merge :=
    db.contacts.filter (fun c => contact_ids.contains c.id && c.user_id == user_id)
  if contacts_to_merge.length < 2 then
    (db, .ok (.failure "At least two contacts are required for merging"))
  else
    match contacts_to_merge with
    | [] => (db, .ok (.failure "At least two contacts are required for merging"))
    | primary :: others =>
      let merged := others.foldl merge_into primary
      let db1 : AppDB :=
        { db with contacts := db.contacts.map (fun c => if c.id = merged.id then merged else c) }
      match ContactManagementService.log_history db1 user_id merged.id "merge_primary"
          (contact_to_dict primary) (contact_to_dict merged) with
      | .error e => (db1, .error e)
      | .ok db2 =>
        match merge_delete_loop user_id db2 others with
        | (db3, some e) => (db3, .error e)
        | (db3, none) => (db3, .ok (.success (some merged)))

/-- C1 (refuted by the code): _log_history passes the keyword arguments
action and timestamp to HistoryService.log_action, whose parameters are
user_id, contact_id, action_type, before_data, after_data, description
and request_info.  The binding therefore raises TypeError on every
mutation: create_contact always ends in the exception after committing
the new row, and the history state is left untouched — no ContactHistory
entry is ever appended by the service. -/
theorem claim_C1_log_history_type_error :
    ∀ (db : AppDB) (user_id : Nat) (contact_data : ContactData),
      "action" ∈ log_history_call_kwargs
      ∧ "action" ∉ log_action_param_names
      ∧ kwargs_accepted log_action_param_names log_history_call_kwargs = false
      ∧ (ContactManagementService.create_contact db user_id contact_data).2
          = .error "TypeError: log_action() got an unexpected keyword argument"
      ∧ (ContactManagementService.create_contact db user_id contact_data).1.history
          = db.history := by
  intro db user_id contact_data
  exact ⟨by decide, by decide, by decide, rfl, rfl⟩

/-- C9: when fewer than two of the requested contact ids belong to the
user, merge_contacts returns the at-least-two failure dictionary and the
whole database state — contacts and history alike — is unchanged. -/
theorem claim_C9_merge_requires_two_contacts :
    ∀ (db : AppDB) (user_id : Nat) (contact_ids : List Nat),
      (db.contacts.filter
        (fun c => contact_ids.contains c.id && c.user_id == user_id)).length < 2 →
      ContactManagementService.merge_contacts db user_id contact_ids
        = (db, .ok (.failure "At least two contacts are required for merging")) := by
  intro db user_id contact_ids h
  unfold ContactManagementService.merge_contacts
  dsimp only
  rw [if_pos h]

/-- Concrete one-contact database for the C9 witness. -/
def c9_contact : MContact :=
  { id := 1, user_id := 1, full_name := some "Ada", first_name := none
    last_name := none, organization := none, title := none
    emails := [], phones := [], notes := none, tags := []
    related_names := [], explorium_data := none }

/-- Database with a single contact of user 1. -/
def c9_db : AppDB :=
  { contacts := [c9_contact], history := { entries := [], next_id := 1 }
    next_contact_id := 2 }

/-- Witness for C9: merging ids of which only one belongs to the user
fails with the required error and leaves the state unchanged. -/
theorem claim_C9_merge_requires_two_contacts_witness :
    (c9_db.contacts.filter
      (fun c => [1, 99].contains c.id && c.user_id == 1)).length < 2
    ∧ ContactManagementService.merge_contacts c9_db 1 [1, 99]
        = (c9_db, .ok (.failure "At least two contacts are required for merging")) :=
  ⟨by decide, claim_C9_merge_requires_two_contacts c9_db 1 [1, 99] (by decide)⟩

/-! ## ContactNLUService (src/services/nlu_service.py)

The extractors are regex findall calls.  They are embedded as scanners
over the character list: the text is cut into maximal runs of word
characters (the regex word class, ASCII) and separator runs, and each
regex is translated into a matcher over these runs or over raw
characters.  Backtracking subtleties that cannot change any claim are
approximated where noted in the doc comments.
-/

/-- The regex word class (ASCII): letters, digits and underscore. -/
def word_char (c : Char) : Bool :=
  c.isAlphanum || c = '_'

/-- Maximal runs of characters of equal word_char class; the fuel is
structural and one unit is spent per run, so the length of the list is
always enough. -/
def class_runs_fuel : Nat → List Char → List (List Char)
  | 0, _ => []
  | _, [] => []
  | fuel + 1, c :: cs =>
    (c :: cs.takeWhile (fun x => word_char x == word_char c))
      :: class_runs_fuel fuel (cs.dropWhile (fun x => word_char x == word_char c))

/-- Maximal runs of characters of equal word_char class, in order. -/
def class_runs (cs : List Char) : List (List Char) :=
  class_runs_fuel cs.length cs

/-- Token stream of a text: word runs and separator runs. -/
inductive NToken where
  | word : List Char → NToken
  | sep : List Char → NToken
deriving DecidableEq

/-- Tokenization of a character list into word and separator tokens. -/
def ntokens (cs : List Char) : List NToken :=
  (class_runs cs).map (fun r =>
    match r with
    | c :: _ => if word_char c then .word r else .sep r
    | [] => .sep [])

/-- Embeds re.findall of the keyword pattern of extract_keywords on the
lowercased text: a word bounded on both sides matches exactly when a
maximal word-character run consists solely of lowercase letters and has
length at least four. -/
def lc_word_tokens (text : String) : List String :=
  (((class_runs (py_lower text).toList).filter
      (fun r => r.all (fun c => word_char c && 'a' ≤ c && c ≤ 'z')
        && decide (4 ≤ r.length) && decide (r ≠ []))).map String.mk)

/-- The stop-word set of extract_keywords. -/
def nlu_stop_words : List String :=
  ["the", "a", "an", "and", "or", "but", "in", "on", "at", "to", "for",
   "of", "with", "by", "from", "is", "was", "are", "were", "been", "be",
   "have", "has", "had", "do", "does", "did", "will", "would", "should",
   "could", "may", "might", "must", "can"]

/-- Frequency-dictionary update of extract_keywords, keeping the Python
dict insertion order. -/
def freq_bump (acc : List (String × Nat)) (w : String) : List (String × Nat) :=
  if acc.any (fun kv => kv.1 == w) then
    acc.map (fun kv => if kv.1 == w then (kv.1, kv.2 + 1) else kv)
  else acc ++ [(w, 1)]

/-- Stable descending insertion by count, embedding
sorted(key=count, reverse=True): an element is placed before the first
element whose count is at most its own, so equal counts keep their
original order. -/
def insert_desc (x : String × Nat) : List (String × Nat) → List (String × Nat)
  | [] => [x]
  | y :: ys => if y.2 ≤ x.2 then x :: y :: ys else y :: insert_desc x ys

/-- Stable insertion sort by count descending. -/
def sort_desc : List (String × Nat) → List (String × Nat)
  | [] => []
  | x :: xs => insert_desc x (sort_desc xs)

/-- Embeds ContactNLUService.extract_keywords: lowercase words of length
at least four, stop words removed, counted, sorted by frequency
descending, top ten returned. -/
def extract_keywords (text : String) : List String :=
  let words := lc_word_tokens text
  let keywords := words.filter (fun w => ¬ nlu_stop_words.contains w)
  let word_freq := keywords.foldl freq_bump []
  ((sort_desc word_freq).take 10).map (fun kv => kv.1)

/-! ## Lemmas about extract_keywords -/

/-- Every run produced by the tokenizer occurs verbatim in the text. -/
theorem class_runs_fuel_infix :
    ∀ (fuel : Nat) (cs r : List Char),
      r ∈ class_runs_fuel fuel cs → ∃ pre post, cs = pre ++ r ++ post := by
  intro fuel
  induction fuel with
  | zero => intro cs r h; simp [class_runs_fuel] at h
  | succ n ih =>
    intro cs r h
    cases cs with
    | nil => simp [class_runs_fuel] at h
    | cons c cs2 =>
      simp only [class_runs_fuel] at h
      rcases List.mem_cons.mp h with h | h
      · refine ⟨[], cs2.dropWhile (fun x => word_char x == word_char c), ?_⟩
        rw [h]
        simp [List.takeWhile_append_dropWhile]
      · obtain ⟨pre, post, hp⟩ := ih _ _ h
        refine ⟨(c :: cs2.takeWhile (fun x => word_char x == word_char c)) ++ pre, post, ?_⟩
        have hsplit : c :: cs2
            = (c :: cs2.takeWhile (fun x => word_char x == word_char c))
              ++ cs2.dropWhile (fun x => word_char x == word_char c) := by
          simp [List.takeWhile_append_dropWhile]
        rw [hsplit, hp]
        simp [List.append_assoc]

/-- Keys present after a frequency bump were present before or equal the
bumped word. -/
theorem freq_bump_keys (acc : List (String × Nat)) (w : String)
    (kv : String × Nat) (h : kv ∈ freq_bump acc w) :
    kv.1 ∈ acc.map Prod.fst ∨ kv.1 = w := by
  unfold freq_bump at h
  by_cases hc : acc.any (fun kv => kv.1 == w)
  · rw [if_pos hc] at h
    obtain ⟨kv0, hkv0, hmap⟩ := List.mem_map.mp h
    left
    by_cases he : kv0.1 == w
    · rw [if_pos he] at hmap
      rw [← hmap]
      exact List.mem_map.mpr ⟨kv0, hkv0, rfl⟩
    · rw [if_neg he] at hmap
      rw [← hmap]
      exact List.mem_map.mpr ⟨kv0, hkv0, rfl⟩
  · rw [if_neg hc] at h
    rcases List.mem_append.mp h with h2 | h2
    · exact Or.inl (List.mem_map.mpr ⟨kv, h2, rfl⟩)
    · rw [List.mem_singleton.mp h2]
      exact Or.inr rfl

/-- Keys of the folded frequency dictionary all come from the word list
(or the initial accumulator). -/
theorem foldl_freq_keys :
    ∀ (ws : List String) (acc : List (String × Nat)) (kv : String × Nat),
      kv ∈ ws.foldl freq_bump acc → kv.1 ∈ acc.map Prod.fst ∨ kv.1 ∈ ws := by
  intro ws
  induction ws with
  | nil => intro acc kv h; exact Or.inl (List.mem_map.mpr ⟨kv, h, rfl⟩)
  | cons w ws2 ih =>
    intro acc kv h
    rw [List.foldl_cons] at h
    rcases ih (freq_bump acc w) kv h with h2 | h2
    · obtain ⟨kv2, hkv2, hfst⟩ := List.mem_map.mp h2
      rcases freq_bump_keys acc w kv2 hkv2 with h3 | h3
      · exact Or.inl (hfst ▸ h3)
      · exact Or.inr (List.mem_cons.mpr (Or.inl (hfst ▸ h3)))
    · exact Or.inr (List.mem_cons.mpr (Or.inr h2))

/-- Membership is preserved by insertion. -/
theorem insert_desc_mem (x a : String × Nat) :
    ∀ (l : List (String × Nat)), a ∈ insert_desc x l ↔ a = x ∨ a ∈ l := by
  intro l
  induction l with
  | nil => simp [insert_desc]
  | cons y ys ih =>
    unfold insert_desc
    by_cases h : y.2 ≤ x.2
    · rw [if_pos h]
      simp [List.mem_cons]
    · rw [if_neg h]
      simp only [List.mem_cons, ih]
      tauto

/-- Membership is preserved by the stable sort. -/
theorem sort_desc_mem (a : String × Nat) :
    ∀ (l : List (String × Nat)), a ∈ sort_desc l ↔ a ∈ l := by
  intro l
  induction l with
  | nil => simp [sort_desc]
  | cons y ys ih =>
    unfold sort_desc
    rw [insert_desc_mem]
    simp [List.mem_cons, ih]

/-- C10: extract_keywords returns at most ten strings; each returned
string is a lowercase word of length at least four, is not a stop word,
is one of the bounded lowercase word tokens of the text, and occurs
verbatim inside the lowercased text. -/
theorem claim_C10_extract_keywords_shape :
    ∀ (text : String),
      (extract_keywords text).length ≤ 10
      ∧ ∀ w ∈ extract_keywords text,
          4 ≤ w.length
          ∧ w.toList.all (fun c => decide ('a' ≤ c) && decide (c ≤ 'z')) = true
          ∧ w ∉ nlu_stop_words
          ∧ w ∈ lc_word_tokens text
          ∧ ∃ pre post, (py_lower text).toList = pre ++ w.toList ++ post := by
  intro text
  constructor
  · unfold extract_keywords
    dsimp only
    rw [List.length_map, List.length_take]
    exact min_le_left _ _
  · intro w hw
    unfold extract_keywords at hw
    dsimp only at hw
    obtain ⟨kv, hkv_take, hkv_eq⟩ := List.mem_map.mp hw
    have hkv_sort : kv ∈ sort_desc (((lc_word_tokens text).filter
        (fun w => ¬ nlu_stop_words.contains w)).foldl freq_bump []) :=
      List.mem_of_mem_take hkv_take
    have hkv_freq := (sort_desc_mem kv _).mp hkv_sort
    rcases foldl_freq_keys _ [] kv hkv_freq with h2 | h2
    · simp at h2
    · have hkw : w ∈ (lc_word_tokens text).filter
          (fun w => ¬ nlu_stop_words.contains w) := hkv_eq ▸ h2
      have hmem := List.mem_filter.mp hkw
      have hnostop : w ∉ nlu_stop_words := by
        have hthis := hmem.2
        simp only [decide_not, Bool.not_eq_true'] at hthis
        intro hcontra
        have hc2 : nlu_stop_words.contains w = true := List.elem_eq_true_of_mem hcontra
        rw [hc2] at hthis
        simp at hthis
      have htok : w ∈ lc_word_tokens text := hmem.1
      obtain ⟨r, hr_filter, hr_eq⟩ := List.mem_map.mp htok
      have hr := List.mem_filter.mp hr_filter
      have hconds := hr.2
      simp only [Bool.and_eq_true, decide_eq_true_eq] at hconds
      have hlen : 4 ≤ w.length := by
        rw [← hr_eq]
        exact hconds.1.2
      have hlowerall : w.toList.all (fun c => decide ('a' ≤ c) && decide (c ≤ 'z')) = true := by
        rw [← hr_eq]
        have hall := hconds.1.1
        rw [List.all_eq_true] at hall
        rw [List.all_eq_true]
        intro c hc
        have := hall c hc
        simp only [Bool.and_eq_true, decide_eq_true_eq] at this
        simp [this.1.2, this.2]
      have hinfix : ∃ pre post, (py_lower text).toList = pre ++ w.toList ++ post := by
        obtain ⟨pre, post, hp⟩ := class_runs_fuel_infix _ _ r hr.1
        exact ⟨pre, post, by rw [← hr_eq]; exact hp⟩
      exact ⟨hlen, hlowerall, hnostop, htok, hinfix⟩

/-- Witness for C10: the theorem applied to a concrete note text and the
keyword it returns. -/
theorem claim_C10_extract_keywords_shape_witness :
    (extract_keywords "great meeting with Sarah about the project").length ≤ 10
    ∧ ("great" ∈ extract_keywords "great meeting with Sarah about the project"
        ∧ 4 ≤ ("great" : String).length) :=
  ⟨(claim_C10_extract_keywords_shape "great meeting with Sarah about the project").1,
   by
    have h := (claim_C10_extract_keywords_shape
      "great meeting with Sarah about the project").2 "great" (by decide)
    exact ⟨by decide, h.1⟩⟩

/-! ## Capitalized-word chains for names, companies and locations -/

/-- A separator run consisting of whitespace only. -/
def ws_only (s : List Char) : Bool :=
  !s.isEmpty && s.all Char.isWhitespace

/-- A whole word run matching the capitalized-word atom of the patterns:
one uppercase letter followed by one or more lowercase letters. -/
def cap_word (r : List Char) : Bool :=
  match r with
  | c :: rest => c.isUpper && !rest.isEmpty && rest.all Char.isLower
  | [] => false

/-- A whole word run matching the all-caps atom: at least two uppercase
letters and nothing else. -/
def allcaps_word (r : List Char) : Bool :=
  decide (2 ≤ r.length) && r.all Char.isUpper

/-- One fold step of the chain collector: group consecutive predicate
words separated by whitespace-only separators into chains.  The state is
(finished chains, current chain reversed, pending whitespace flag). -/
def chains_step (pred : List Char → Bool)
    (st : List (List (List Char)) × List (List Char) × Bool) (t : NToken) :
    List (List (List Char)) × List (List Char) × Bool :=
  let flush := fun (acc : List (List (List Char))) (cur : List (List Char)) =>
    if cur.isEmpty then acc else acc ++ [cur.reverse]
  match t with
  | .word w =>
    if pred w then
      if !st.2.1.isEmpty && st.2.2 then (st.1, w :: st.2.1, false)
      else (flush st.1 st.2.1, [w], false)
    else (flush st.1 st.2.1, [], false)
  | .sep s =>
    if ws_only s then (st.1, st.2.1, true)
    else (flush st.1 st.2.1, [], false)

/-- Maximal chains of predicate words joined by whitespace, embedding the
(?:\s+atom)* repetition of the patterns; the separator characters inside
a match are normalized to single spaces. -/
def cap_chains (pred : List Char → Bool) (ts : List NToken) :
    List (List (List Char)) :=
  let st := ts.foldl (chains_step pred) ([], [], false)
  if st.2.1.isEmpty then st.1 else st.1 ++ [st.2.1.reverse]

/-- Greedy left-to-right grouping of a chain into the 2-or-3 word name
matches of extract_names ({1,2} additional words, greedy,
non-overlapping; a leftover single word matches nothing). -/
def name_groups : List (List Char) → List (List Char)
  | w1 :: w2 :: w3 :: rest =>
    (w1 ++ [' '] ++ w2 ++ [' '] ++ w3) :: name_groups rest
  | [w1, w2] => [w1 ++ [' '] ++ w2]
  | _ => []

/-- The company indicator list of ContactNLUService.__init__. -/
def company_indicators : List String :=
  ["inc", "llc", "ltd", "corp", "corporation", "company", "co", "group",
   "enterprises"]

/-- Embeds ContactNLUService.extract_names: groups of two or three
capitalized words, filtered of anything containing a company indicator as
a lowercase substring, deduplicated (the Python set order is modelled by
first-occurrence order). -/
def extract_names (text : String) : List String :=
  let ts := ntokens text.toList
  let found := ((cap_chains cap_word ts).flatMap name_groups).map String.mk
  (found.filter (fun m =>
    ¬ company_indicators.any (fun ind => py_in ind (py_lower m)))).dedup

/-- A word run containing letters only. -/
def alpha_word (r : List Char) : Bool :=
  !r.isEmpty && r.all Char.isAlpha

/-- A separator run all of whose characters stay inside the bracket class
of the company pattern (whitespace or ampersand), ending in whitespace
just before the indicator. -/
def company_sep (s : List Char) : Bool :=
  !s.isEmpty && s.all (fun c => c.isWhitespace || c = '&')
    && (s.getLastD ' ').isWhitespace

/-- Left phrase of the first company pattern: walking the reversed prefix
tokens, collect the words (letters only) joined by whitespace/ampersand
separators that precede the indicator.  Approximates the greedy
[A-Z][A-Za-z\s&]+ group with separators normalized to single spaces. -/
def company_left_phrase : List NToken → List (List Char) → List (List Char)
  | .word w :: .sep s :: rest, acc =>
    if alpha_word w then
      if company_sep s then company_left_phrase rest (w :: acc)
      else w :: acc
    else acc
  | .word w :: _, acc => if alpha_word w then w :: acc else acc
  | _, acc => acc

/-- Scan of the first company pattern for one indicator: an indicator
word (case-insensitive) preceded by a whitespace separator and a phrase
of letter words; the optional trailing dot of the pattern is dropped (it
is only ever matched before another word character). -/
def company_p1_scan (ind : String) :
    List NToken → List NToken → List String
  | _, [] => []
  | before, t :: rest =>
    match t with
    | .word w =>
      if py_lower (String.mk w) = ind then
        match before with
        | .sep s :: before2 =>
          if company_sep s then
            match company_left_phrase before2 [] with
            | [] => company_p1_scan ind (t :: before) rest
            | phrase =>
              if 2 ≤ (phrase.flatMap id).length then
                String.mk ((List.intercalate [' '] phrase) ++ [' '] ++ w)
                  :: company_p1_scan ind (t :: before) rest
              else company_p1_scan ind (t :: before) rest
          else company_p1_scan ind (t :: before) rest
        | _ => company_p1_scan ind (t :: before) rest
      else company_p1_scan ind (t :: before) rest
    | _ => company_p1_scan ind (t :: before) rest

/-- Embeds ContactNLUService.extract_companies: indicator-suffixed
phrases (pattern 1, approximated as documented above) plus all-caps word
chains (pattern 2), stripped and deduplicated. -/
def extract_companies (text : String) : List String :=
  let ts := ntokens text.toList
  let p1 := company_indicators.flatMap (fun ind => company_p1_scan ind [] ts)
  let p2 := (cap_chains allcaps_word ts).map
    (fun ch => String.mk (List.intercalate [' '] ch))
  ((p1 ++ p2).map py_strip).dedup

/-! ## Character-level scanners for dates, emails and phones -/

/-- Generic non-overlapping left-to-right findall scanner.  The matcher
receives the previous character (for word-boundary tests) and the rest of
the text, and returns the extracted value, the last consumed character
and the remaining text.  One fuel unit is spent per attempted position,
so the text length bounds the fuel. -/
def scan_matches {α : Type}
    (m : Option Char → List Char → Option (α × Option Char × List Char)) :
    Nat → Option Char → List Char → List α
  | 0, _, _ => []
  | _, _, [] => []
  | fuel + 1, prev, c :: cs =>
    match m prev (c :: cs) with
    | some (v, last, rest) => v :: scan_matches m fuel last rest
    | none => scan_matches m fuel (some c) cs

/-- No word boundary before a word character unless the previous
character is absent or a non-word character. -/
def at_word_boundary (prev : Option Char) : Bool :=
  match prev with
  | none => true
  | some p => !word_char p

/-- Greedy digit prefix of the text. -/
def digit_run (cs : List Char) : List Char × List Char :=
  (cs.takeWhile Char.isDigit, cs.dropWhile Char.isDigit)

/-- The next character is outside the word class (or the text ends);
this is the trailing word-boundary test after a word character. -/
def boundary_after (cs : List Char) : Bool :=
  match cs with
  | [] => true
  | c :: _ => !word_char c

/-- Separator class of the numeric date pattern. -/
def date_sep (c : Char) : Bool :=
  c = '/' || c = '-'

/-- Matcher of the first date pattern of digits separated by slash or dash with
word boundaries on both sides: the digit groups must coincide with whole
digit runs of the allowed lengths, since a leftover adjacent digit
defeats the boundary or the separator. -/
def date1_matcher (prev : Option Char) (cs : List Char) :
    Option (List Char × Option Char × List Char) :=
  if !at_word_boundary prev then none
  else
    let (d1, r1) := digit_run cs
    if d1.isEmpty || decide (2 < d1.length) then none
    else
      match r1 with
      | s1 :: r2 =>
        if !date_sep s1 then none
        else
          let (d2, r3) := digit_run r2
          if d2.isEmpty || decide (2 < d2.length) then none
          else
            match r3 with
            | s2 :: r4 =>
              if !date_sep s2 then none
              else
                let (d3, r5) := digit_run r4
                if decide (2 ≤ d3.length) && decide (d3.length ≤ 4)
                    && boundary_after r5 then
                  some (d1 ++ [s1] ++ d2 ++ [s2] ++ d3, d3.getLast?, r5)
                else none
            | [] => none
      | [] => none

/-- The month-name alternation of the second date pattern. -/
def month_names : List String :=
  ["January", "February", "March", "April", "May", "June", "July",
   "August", "September", "October", "November", "December"]

/-- Case-insensitive literal match of a string at the head of the text. -/
def ci_starts_with (lit : String) (cs : List Char) : Option (List Char × List Char) :=
  let n := lit.length
  let taken := cs.take n
  if py_lower (String.mk taken) = py_lower lit ∧ taken.length = n then
    some (taken, cs.drop n)
  else none

/-- Matcher of the second date pattern Month\s+\d{1,2},?\s+\d{4} with
IGNORECASE and a trailing word boundary. -/
def date2_matcher (prev : Option Char) (cs : List Char) :
    Option (List Char × Option Char × List Char) :=
  if !at_word_boundary prev then none
  else
    match month_names.findSome? (fun mn => ci_starts_with mn cs) with
    | none => none
    | some (mtext, r1) =>
      let ws1 := r1.takeWhile Char.isWhitespace
      let r2 := r1.dropWhile Char.isWhitespace
      if ws1.isEmpty then none
      else
        let (d1, r3) := digit_run r2
        if d1.isEmpty || decide (2 < d1.length) then none
        else
          let (comma, r4) :=
            match r3 with
            | ',' :: r4a => (([','] : List Char), r4a)
            | _ => ([], r3)
          let ws2 := r4.takeWhile Char.isWhitespace
          let r5 := r4.dropWhile Char.isWhitespace
          if ws2.isEmpty then none
          else
            let (d2, r6) := digit_run r5
            if decide (d2.length = 4) && boundary_after r6 then
              some (mtext ++ ws1 ++ d1 ++ comma ++ ws2 ++ d2, d2.getLast?, r6)
            else none

/-- Matcher of the third date pattern 20\d{2} between word boundaries:
a standalone four-digit run starting 20. -/
def date3_matcher (prev : Option Char) (cs : List Char) :
    Option (List Char × Option Char × List Char) :=
  if !at_word_boundary prev then none
  else
    let (d, r) := digit_run cs
    match d with
    | '2' :: '0' :: c3 :: c4 :: [] =>
      if boundary_after r then some (['2', '0', c3, c4], some c4, r) else none
    | _ => none

/-- Embeds ContactNLUService.extract_dates: the three findall passes
concatenated, then deduplicated as a set. -/
def extract_dates (text : String) : List String :=
  let cs := text.toList
  let n := cs.length + 1
  (((scan_matches date1_matcher n none cs)
    ++ (scan_matches date2_matcher n none cs)
    ++ (scan_matches date3_matcher n none cs)).map String.mk).dedup

/-! ## Email and phone scanners -/

/-- Character class of the local part of the email pattern. -/
def email_local_char (c : Char) : Bool :=
  c.isAlphanum || c = '.' || c = '_' || c = '%' || c = '+' || c = '-'

/-- Character class of the domain part of the email pattern. -/
def email_domain_char (c : Char) : Bool :=
  c.isAlphanum || c = '.' || c = '-'

/-- Character class of the top-level-domain group (the bracket class of
the pattern contains the letters and a literal bar). -/
def email_tld_char (c : Char) : Bool :=
  c.isAlpha || c = '|'

/-- Longest usable prefix of the greedy domain run: the largest cut whose
tail is a dot followed by at least two letters with a word boundary
after the cut, embedding the backtracking of the domain group. -/
def email_domain_fit (run : List Char) (after : List Char) : Option (List Char) :=
  (List.range (run.length + 1)).reverse.findSome? (fun k =>
    let part := run.take k
    let tld := (part.reverse.takeWhile email_tld_char).reverse
    if decide (2 ≤ tld.length)
        && decide (part.take (part.length - tld.length) ≠ [])
        && ((part.take (part.length - tld.length)).getLastD ' ' == '.')
        && decide (1 ≤ part.length - tld.length - 1)
        && boundary_after (run.drop k ++ after) then
      some part
    else none)

/-- Matcher of the email pattern: a word boundary, a greedy run of local
characters, an at-sign, and the longest domain cut ending in a dot and a
two-letter-or-more group followed by a word boundary. -/
def email_matcher (prev : Option Char) (cs : List Char) :
    Option (List Char × Option Char × List Char) :=
  match cs with
  | c :: _ =>
    if !email_local_char c then none
    else if word_char c && !at_word_boundary prev then none
    else if !word_char c then none
    else
      let local_ := cs.takeWhile email_local_char
      let r1 := cs.dropWhile email_local_char
      match r1 with
      | '@' :: r2 =>
        let run := r2.takeWhile email_domain_char
        let after := r2.dropWhile email_domain_char
        match email_domain_fit run after with
        | some part =>
          some (local_ ++ '@' :: part, part.getLast?,
            run.drop part.length ++ after)
        | none => none
      | _ => none
  | [] => none

/-- Embeds ContactNLUService.extract_emails: findall of the email
pattern, deduplicated. -/
def extract_emails (text : String) : List String :=
  let cs := text.toList
  ((scan_matches email_matcher (cs.length + 1) none cs).map String.mk).dedup

/-- Separator class of the phone patterns (dash, dot or whitespace). -/
def phone_sep (c : Char) : Bool :=
  c = '-' || c = '.' || c.isWhitespace

/-- Consume one optional separator character, greedily. -/
def opt_phone_sep (cs : List Char) : List Char × List Char :=
  match cs with
  | c :: rest => if phone_sep c then ([c], rest) else ([], cs)
  | [] => ([], [])

/-- Take exactly n digits or fail. -/
def take_digits (n : Nat) (cs : List Char) : Option (List Char × List Char) :=
  let d := cs.take n
  if decide (d.length = n) && d.all Char.isDigit then some (d, cs.drop n) else none

/-- Matcher of the plain phone pattern: three digits, an optional
separator, three digits, an optional separator, four digits, between
word boundaries. -/
def phoneA_matcher (prev : Option Char) (cs : List Char) :
    Option (List Char × Option Char × List Char) :=
  if !at_word_boundary prev then none
  else
    match take_digits 3 cs with
    | none => none
    | some (d1, r1) =>
      let (s1, r2) := opt_phone_sep r1
      match take_digits 3 r2 with
      | none => none
      | some (d2, r3) =>
        let (s2, r4) := opt_phone_sep r3
        match take_digits 4 r4 with
        | none => none
        | some (d3, r5) =>
          if boundary_after r5 then
            some (d1 ++ s1 ++ d2 ++ s2 ++ d3, d3.getLast?, r5)
          else none

/-- Matcher of the parenthesized phone pattern.  The pattern starts with
a word boundary before the opening parenthesis, which (a quirk of the
source regex) requires a word character right before it. -/
def phoneB_matcher (prev : Option Char) (cs : List Char) :
    Option (List Char × Option Char × List Char) :=
  if !(match prev with | some p => word_char p | none => false) then none
  else
    match cs with
    | '(' :: r1 =>
      match take_digits 3 r1 with
      | none => none
      | some (d1, r2) =>
        match r2 with
        | ')' :: r3 =>
          let ws := r3.takeWhile Char.isWhitespace
          let r4 := r3.dropWhile Char.isWhitespace
          match take_digits 3 r4 with
          | none => none
          | some (d2, r5) =>
            let (s2, r6) := opt_phone_sep r5
            match take_digits 4 r6 with
            | none => none
            | some (d3, r7) =>
              if boundary_after r7 then
                some ('(' :: d1 ++ ')' :: ws ++ d2 ++ s2 ++ d3, d3.getLast?, r7)
              else none
        | _ => none
    | _ => none

/-- Backtracking search of the international phone pattern digit groups:
one to three digits, an optional separator, one to four digits, an
optional separator, one to nine digits ending at a word boundary, all
tried greedily in the regex order. -/
def phoneC_groups (cs : List Char) : Option (List Char × List Char) :=
  (List.range 3).findSome? (fun i =>
    let a := 3 - i
    match take_digits a cs with
    | none => none
    | some (d1, r1) =>
      let (s1, r2) := opt_phone_sep r1
      (List.range 4).findSome? (fun j =>
        let b := 4 - j
        match take_digits b r2 with
        | none => none
        | some (d2, r3) =>
          let (s2, r4) := opt_phone_sep r3
          (List.range 9).findSome? (fun k =>
            let cnum := 9 - k
            match take_digits cnum r4 with
            | none => none
            | some (d3, r5) =>
              if boundary_after r5 then
                some (d1 ++ s1 ++ d2 ++ s2 ++ d3, r5)
              else none)))

/-- Matcher of the international phone pattern; the word boundary before
the plus sign requires a word character right before it (the same quirk
as the parenthesized pattern). -/
def phoneC_matcher (prev : Option Char) (cs : List Char) :
    Option (List Char × Option Char × List Char) :=
  if !(match prev with | some p => word_char p | none => false) then none
  else
    match cs with
    | '+' :: r1 =>
      match phoneC_groups r1 with
      | some (body, rest) => some ('+' :: body, body.getLast?, rest)
      | none => none
    | _ => none

/-- Embeds ContactNLUService.extract_phones: the three findall passes
concatenated, deduplicated. -/
def extract_phones (text : String) : List String :=
  let cs := text.toList
  let n := cs.length + 1
  (((scan_matches phoneA_matcher n none cs)
    ++ (scan_matches phoneB_matcher n none cs)
    ++ (scan_matches phoneC_matcher n none cs)).map String.mk).dedup

/-! ## Relationship, location and sentiment extraction -/

/-- The relationship keyword dictionary of ContactNLUService.__init__,
in insertion order. -/
def relationship_keywords : List (String × List String) :=
  [ ("family", ["wife", "husband", "son", "daughter", "brother", "sister",
      "mother", "father", "parent", "child", "spouse", "partner"])
  , ("professional", ["colleague", "coworker", "boss", "manager", "employee",
      "client", "vendor", "supplier", "consultant"])
  , ("social", ["friend", "neighbor", "acquaintance", "classmate", "teammate"]) ]

/-- One extracted relationship dictionary. -/
structure RelHit where
  rtype : String
  relationship : String
  name : String
deriving DecidableEq

/-- A name atom of the relationship pattern under IGNORECASE: a maximal
run of at least two letters. -/
def rel_name_word (cs : List Char) : Option (List Char × List Char) :=
  let w := cs.takeWhile Char.isAlpha
  if decide (2 ≤ w.length) then some (w, cs.dropWhile Char.isAlpha) else none

/-- The captured name group: one letter word, optionally followed by
whitespace and a second letter word (greedy). -/
def rel_name_group (cs : List Char) : Option (List Char × List Char) :=
  match rel_name_word cs with
  | none => none
  | some (w1, r1) =>
    let ws := r1.takeWhile Char.isWhitespace
    let r2 := r1.dropWhile Char.isWhitespace
    if ws.isEmpty then some (w1, r1)
    else
      match rel_name_word r2 with
      | some (w2, r3) => some (w1 ++ ws ++ w2, r3)
      | none => some (w1, r1)

/-- Name part after the keyword: first the greedy optional \s+is branch,
then the plain \s+name branch, as the regex backtracks. -/
def rel_after_kw (cs : List Char) : Option (List Char × List Char) :=
  let ws1 := cs.takeWhile Char.isWhitespace
  let r1 := cs.dropWhile Char.isWhitespace
  if ws1.isEmpty then none
  else
    let with_is :=
      match ci_starts_with "is" r1 with
      | none => none
      | some (_, r2) =>
        let ws2 := r2.takeWhile Char.isWhitespace
        let r3 := r2.dropWhile Char.isWhitespace
        if ws2.isEmpty then none
        else rel_name_group r3
    match with_is with
    | some res => some res
    | none => rel_name_group r1

/-- Matcher of the relationship pattern for one keyword: an optional
my-prefix, the keyword (case-insensitive, no boundary), an optional
is-connector and the captured name. -/
def rel_matcher (kw : String) (_prev : Option Char) (cs : List Char) :
    Option (List Char × Option Char × List Char) :=
  let try_kw := fun (cs2 : List Char) =>
    match ci_starts_with kw cs2 with
    | none => none
    | some (_, r1) => rel_after_kw r1
  let with_my :=
    match ci_starts_with "my" cs with
    | none => none
    | some (_, r1) =>
      let ws := r1.takeWhile Char.isWhitespace
      let r2 := r1.dropWhile Char.isWhitespace
      if ws.isEmpty then none else try_kw r2
  match with_my with
  | some (nm, rest) => some (nm, nm.getLast?, rest)
  | none =>
    match try_kw cs with
    | some (nm, rest) => some (nm, nm.getLast?, rest)
    | none => none

/-- Embeds ContactNLUService.extract_relationships: for every relationship
type and keyword present in the lowercased note, findall of the pattern
collects the captured names as relationship dictionaries. -/
def extract_relationships (text : String) : List RelHit :=
  let cs := text.toList
  let n := cs.length + 1
  relationship_keywords.flatMap (fun rt =>
    rt.2.flatMap (fun kw =>
      if py_in kw (py_lower text) then
        (scan_matches (rel_matcher kw) n none cs).map
          (fun nm => { rtype := rt.1, relationship := kw, name := String.mk nm })
      else []))

/-- A word run of exactly two uppercase letters (the state abbreviation
atom with its trailing boundary). -/
def upper2_word (r : List Char) : Bool :=
  decide (r.length = 2) && r.all Char.isUpper

/-- Chain walker of the first location pattern: after one or more
capitalized words joined by whitespace, a comma separator (optionally
followed by whitespace) and a two-uppercase-letter word. -/
def loc_try : List (List Char) → List NToken → Option (String × List NToken)
  | chain, .sep s :: .word w :: rest =>
    if ws_only s && cap_word w then loc_try (w :: chain) rest
    else
      match s with
      | ',' :: stail =>
        if stail.all Char.isWhitespace && upper2_word w then
          some (String.mk (List.intercalate [' '] chain.reverse ++ s ++ w), rest)
        else none
      | _ => none
  | _, _ => none

/-- Findall of the first location pattern over the token stream. -/
def loc_scan : Nat → List NToken → List String
  | 0, _ => []
  | _, [] => []
  | fuel + 1, t :: rest =>
    match t with
    | .word w =>
      if cap_word w then
        match loc_try [w] rest with
        | some (m, rest2) => m :: loc_scan fuel rest2
        | none => loc_scan fuel rest
      else loc_scan fuel rest
    | .sep _ => loc_scan fuel rest

/-- The hard-coded state-name list of extract_locations. -/
def us_states : List String :=
  ["California", "New York", "Texas", "Florida", "Illinois", "Pennsylvania",
   "Ohio", "Georgia", "North Carolina", "Michigan"]

/-- Embeds ContactNLUService.extract_locations: capitalized phrases
followed by a comma and a state abbreviation, plus hard-coded state names
contained in the text, deduplicated. -/
def extract_locations (text : String) : List String :=
  let ts := ntokens text.toList
  ((loc_scan (ts.length + 1) ts)
    ++ us_states.filter (fun st => py_in st text)).dedup

/-- The sentiment word lists of analyze_sentiment. -/
def positive_words : List String :=
  ["great", "excellent", "good", "wonderful", "amazing", "fantastic",
   "helpful", "friendly", "professional", "reliable"]

/-- Negative sentiment markers. -/
def negative_words : List String :=
  ["bad", "poor", "terrible", "awful", "difficult", "problematic",
   "unreliable", "unprofessional", "rude"]

/-- Embeds ContactNLUService.analyze_sentiment: substring counts of the
marker words in the lowercased text decide the label. -/
def analyze_sentiment (text : String) : String :=
  let text_lower := py_lower text
  let positive_count := (positive_words.filter (fun w => py_in w text_lower)).length
  let negative_count := (negative_words.filter (fun w => py_in w text_lower)).length
  if positive_count > negative_count then "positive"
  else if negative_count > positive_count then "negative"
  else "neutral"

/-! ## analyze_note -/

/-- The analysis dictionary returned by analyze_note, one field per key
in the order the source builds them: names, companies, dates,
relationships, emails, phones, locations, sentiment, keywords. -/
structure NoteAnalysis where
  names : List String
  companies : List String
  dates : List String
  relationships : List RelHit
  emails : List String
  phones : List String
  locations : List String
  sentiment : String
  keywords : List String
deriving DecidableEq

/-- Embeds ContactNLUService.analyze_note: an empty dictionary (modelled
as none) for a falsy note_text (None or empty), otherwise the nine-key
analysis dictionary, each value produced by its extraction function. -/
def analyze_note (note_text : Option String) : Option NoteAnalysis :=
  match note_text with
  | none => none
  | some t =>
    if t = "" then none
    else some
      { names := extract_names t
        companies := extract_companies t
        dates := extract_dates t
        relationships := extract_relationships t
        emails := extract_emails t
        phones := extract_phones t
        locations := extract_locations t
        sentiment := analyze_sentiment t
        keywords := extract_keywords t }

/-- C7: analyze_note returns the empty dictionary for a missing or empty
note, and otherwise a dictionary with exactly the nine analysis keys,
each value produced by the corresponding extraction function. -/
theorem claim_C7_analyze_note_shape :
    analyze_note none = none
    ∧ analyze_note (some "") = none
    ∧ ∀ s, s ≠ "" → analyze_note (some s) = some
        { names := extract_names s
          companies := extract_companies s
          dates := extract_dates s
          relationships := extract_relationships s
          emails := extract_emails s
          phones := extract_phones s
          locations := extract_locations s
          sentiment := analyze_sentiment s
          keywords := extract_keywords s } := by
  refine ⟨rfl, rfl, ?_⟩
  intro s hs
  unfold analyze_note
  dsimp only
  rw [if_neg hs]

/-- Witness for C7: the theorem applied at a concrete non-empty note. -/
theorem claim_C7_analyze_note_shape_witness :
    ("hello note" : String) ≠ ""
    ∧ analyze_note (some "hello note") = some
        { names := extract_names "hello note"
          companies := extract_companies "hello note"
          dates := extract_dates "hello note"
          relationships := extract_relationships "hello note"
          emails := extract_emails "hello note"
          phones := extract_phones "hello note"
          locations := extract_locations "hello note"
          sentiment := analyze_sentiment "hello note"
          keywords := extract_keywords "hello note" } :=
  ⟨by decide, claim_C7_analyze_note_shape.2.2 "hello note" (by decide)⟩
